import Mathlib

/-!
Verification of the R2-Farmer Crop-Field-Monitoring vegetation-index
analysis and forecasting engine against its specification.

The repository ships the React frontend (`src/frontend`, `src/unnamed`);
the analytical backend (IndexCalculator, StatsAggregator, ZoningEngine,
TimeSeriesAssembler, ForecastEngine) is exercised through HTTP calls and
is not part of the shipped sources, so those components are modelled
from the specification, as marked on each definition.  Client-side logic
(index toggling, forecast request validation, zone descriptions, image
URL construction) is embedded directly from the JavaScript sources.

Numeric values (NDVI-like index values) are embedded as rationals;
calendar dates are embedded as ordinal day numbers, except where the
client manipulates them as opaque strings.
-/

namespace CropMonitor

/-- Provenance tag of a time-series point: how its value was obtained. -/
inductive Provenance where
  | Historical
  | Interpolated
  | Forecast
  deriving DecidableEq

/-- A dated point of an assembled or forecast series (date as ordinal day). -/
structure SeriesPoint where
  date : Nat
  value : ℚ
  prov : Provenance

/-- Error taxonomy of the core (spec section 7). -/
inductive CoreError where
  | DataError
  | InsufficientDataError
  | InsufficientDiversityError
  | NoDataError
  | InsufficientHistoryError
  | InvalidParameterError
  | ProviderError
  deriving DecidableEq

/-- Metadata returned with every forecast (spec section 3). -/
structure ForecastModelMetadata where
  model_type : String
  training_point_count : Nat
  horizon_days : Nat

/-- Modelled from the spec: the backend ForecastEngine (spec section 4.5) is
not under the shipped sources.  Given a series of Historical/Interpolated
points and a horizon in days it validates (fewer than 10 points signals
InsufficientHistoryError; horizon outside 1..90 signals
InvalidParameterError, checked in the order the spec lists them), then
returns the input points re-tagged unchanged followed by one point per
horizon day tagged Forecast, values clipped to the index range [-1, 1].
The regression model itself is abstracted as the `predict` argument since
the spec treats predicted values as approximate, not authoritative. -/
def forecast (predict : Nat → ℚ) (points : List SeriesPoint) (horizon : Nat) :
    Except CoreError (List SeriesPoint × ForecastModelMetadata) :=
  if points.length < 10 then
    .error .InsufficientHistoryError
  else if horizon < 1 ∨ 90 < horizon then
    .error .InvalidParameterError
  else
    let lastDate := (points.map (fun p => p.date)).foldr max 0
    let fpts := (List.range horizon).map (fun i =>
      { date := lastDate + i + 1
        value := max (-1) (min 1 (predict (lastDate + i + 1)))
        prov := Provenance.Forecast : SeriesPoint })
    .ok (points ++ fpts, ⟨"GradientBoosting", points.length, horizon⟩)

/-- A point of the client-side historical series sent to the forecast
endpoint: date string and value, as built in `handleGenerateForecast`. -/
structure TimePoint where
  date : String
  value : ℚ

/-- Outcome of the client-side forecast handler: either an error message is
shown, or a forecast request is issued to the backend. -/
inductive ClientAction where
  | showError (msg : String)
  | requestForecast (data : List TimePoint) (index : String) (horizon : Nat)

/-- Validation step of `handleGenerateForecast` in the TimeSeriesModal
component (part_001, lines 166-185): once the historical data list has
been built from the raw series, a series shorter than 10 points is
rejected with an error message and no request is issued; otherwise the
forecast request is sent via `aiService.forecastTimeSeries`. -/
def handleGenerateForecast (historicalData : List TimePoint)
    (indexName : String) (forecastHorizon : Nat) : ClientAction :=
  if historicalData.length < 10 then
    .showError "Недостаточно исторических данных. Требуется минимум 10 наблюдений для прогнозирования."
  else
    .requestForecast historicalData indexName forecastHorizon

/-- Modelled from the spec: the backend StatsAggregator zones_percent
computation (spec section 4.2) is not under the shipped sources.  The
raster is a list of (index value, validity) pixels; valid pixels are
bucketed by the fixed thresholds low (< 0.3), medium (0.3 to 0.6),
high (> 0.6), and each bucket is reported as a percentage of the valid
pixels.  Returns (low, medium, high) percentages. -/
def zonesPercent (raster : List (ℚ × Bool)) : ℚ × ℚ × ℚ :=
  let valid := (raster.filter (fun p => p.2)).map (fun p => p.1)
  let n : ℚ := valid.length
  let low : ℚ := (valid.filter (fun v => v < 3/10)).length
  let med : ℚ := (valid.filter (fun v => 3/10 ≤ v ∧ v ≤ 6/10)).length
  let high : ℚ := (valid.filter (fun v => 6/10 < v)).length
  (low / n * 100, med / n * 100, high / n * 100)

/-- A management zone: id, member pixel values and their mean index. -/
structure Zone where
  zone_id : Nat
  pixels : List ℚ
  mean_index : ℚ

/-- Mean index value of one cluster of pixels. -/
def clusterMean (c : List ℚ) : ℚ := c.sum / c.length

/-- Insert a cluster into a list of clusters kept in ascending order of
cluster mean. -/
def insertByMean (c : List ℚ) : List (List ℚ) → List (List ℚ)
  | [] => [c]
  | d :: ds =>
    if clusterMean c ≤ clusterMean d then c :: d :: ds
    else d :: insertByMean c ds

/-- Sort clusters in ascending order of cluster mean. -/
def sortByMean : List (List ℚ) → List (List ℚ)
  | [] => []
  | c :: cs => insertByMean c (sortByMean cs)

/-- Number the clusters consecutively starting at `start`. -/
def assignZoneIds (start : Nat) : List (List ℚ) → List Zone
  | [] => []
  | c :: cs => ⟨start, c, clusterMean c⟩ :: assignZoneIds (start + 1) cs

/-- Modelled from the spec: the backend ZoningEngine relabelling step
(spec section 4.3) is not under the shipped sources.  Whatever cluster
labels the clustering produced internally, clusters are relabelled by
ascending cluster mean so that zone_id 1 is the lowest-mean cluster and
zone_id k the highest. -/
def relabelByMean (clusters : List (List ℚ)) : List Zone :=
  assignZoneIds 1 (sortByMean clusters)

/-- Modelled from the spec: the backend zone operation (spec sections 4.3
and 6) is not under the shipped sources.  A requested zone count outside
the set 3, 4, 5 signals InvalidParameterError; too few valid pixels
signals InsufficientDataError; fewer than k distinct values signals
InsufficientDiversityError; otherwise the clustering (abstracted as the
`cluster` argument) runs and its clusters are relabelled by ascending
mean. -/
def zone (k : Nat) (validPixels : List ℚ)
    (cluster : Nat → List ℚ → List (List ℚ)) : Except CoreError (List Zone) :=
  if ¬ (k = 3 ∨ k = 4 ∨ k = 5) then
    .error .InvalidParameterError
  else if validPixels.length < 20 then
    .error .InsufficientDataError
  else if validPixels.dedup.length < k then
    .error .InsufficientDiversityError
  else
    .ok (relabelByMean (cluster k validPixels))

/-- Zone label sets of the FieldZoningTool component
(FieldZoningTool.jsx, lines 66-73): label lists exist only for 3, 4 and
5 zones; any other count yields the empty list. -/
def getZoneDescription (zones : Nat) : List String :=
  match zones with
  | 3 => ["Слабая", "Средняя", "Сильная"]
  | 4 => ["Очень слабая", "Слабая", "Средняя", "Сильная"]
  | 5 => ["Очень слабая", "Слабая", "Средняя", "Сильная", "Очень сильная"]
  | _ => []

/-- Lower bound of the num-zones range input of the FieldZoningTool
component (FieldZoningTool.jsx, line 92: min="3"). -/
def numZonesMin : Nat := 3

/-- Upper bound of the num-zones range input of the FieldZoningTool
component (FieldZoningTool.jsx, line 93: max="5"). -/
def numZonesMax : Nat := 5

/-- Latest Historical point strictly before day `d` (the left temporal
neighbour), given the Historical points sorted by ascending day. -/
def prevHistorical (hist : List (Nat × ℚ)) (d : Nat) : Option (Nat × ℚ) :=
  (hist.filter (fun p => p.1 < d)).getLast?

/-- Earliest Historical point strictly after day `d` (the right temporal
neighbour), given the Historical points sorted by ascending day. -/
def nextHistorical (hist : List (Nat × ℚ)) (d : Nat) : Option (Nat × ℚ) :=
  (hist.filter (fun p => d < p.1)).head?

/-- Linear interpolation between two dated points evaluated at day `d`. -/
def lerp (p q : Nat × ℚ) (d : Nat) : ℚ :=
  p.2 + ((d : ℚ) - p.1) / ((q.1 : ℚ) - p.1) * (q.2 - p.2)

/-- Modelled from the spec: the backend TimeSeriesAssembler gap policy
(spec section 4.4) is not under the shipped sources.  For every calendar
day in the requested range: a day with a Historical observation yields
that observation tagged Historical; a day without one that is bounded by
Historical points on both sides yields the linear interpolation between
its temporal neighbours tagged Interpolated; any other day yields no
point (never extrapolated here). -/
def assembleSeries (hist : List (Nat × ℚ)) (start stop : Nat) :
    List SeriesPoint :=
  (List.range' start (stop + 1 - start)).filterMap (fun d =>
    match hist.find? (fun p => p.1 == d) with
    | some p => some ⟨d, p.2, .Historical⟩
    | none =>
      match prevHistorical hist d, nextHistorical hist d with
      | some p, some q => some ⟨d, lerp p q d, .Interpolated⟩
      | _, _ => none)

/-- Modelled from the spec: the backend IndexCalculator index selection
(spec section 4.1) is not under the shipped sources.  NDVI is mandatory
and always computed; the other supported indices (EVI, PSRI, NBR, NDSI)
are computed only when requested. -/
def computedIndices (requested : List String) : List String :=
  "NDVI" :: (["EVI", "PSRI", "NBR", "NDSI"].filter (fun i => i ∈ requested))

/-- Initial index selection of the Sidebar component
(Sidebar.jsx, line 50). -/
def sidebarInitialIndices : List String := ["NDVI"]

/-- The `handleIndexToggle` state update of the Sidebar component
(Sidebar.jsx, lines 63-73): toggling NDVI is a no-op (NDVI always
included); any other index is removed when present and appended when
absent. -/
def handleIndexToggle (indexName : String) (prev : List String) :
    List String :=
  if indexName = "NDVI" then prev
  else if indexName ∈ prev then prev.filter (fun idx => idx ≠ indexName)
  else prev ++ [indexName]

/-- Initial index selection of the TimeSeriesModal component
(part_001, line 42). -/
def tsInitialIndices : List String := ["NDVI"]

/-- The `toggleIndex` state update of the TimeSeriesModal component
(part_001, lines 425-435): a selected index is removed unless it is the
last one selected (removing the last one is a no-op); an unselected
index is appended. -/
def toggleIndex (indexValue : String) (prev : List String) : List String :=
  if indexValue ∈ prev then
    if prev.length = 1 then prev
    else prev.filter (fun i => i ≠ indexValue)
  else prev ++ [indexValue]

/-- The `buildImageUrl` helper (imageUrlHelper.js, lines 24-38), with JS
strings embedded as character lists and the `Date.now()` timestamp text
as the `now` argument.  An empty or missing input yields null; otherwise
a leading slash is ensured, and a cache-busting timestamp parameter is
appended with the separator chosen by whether the URL already contains a
question mark. -/
def buildImageUrl (now : List Char) (imageUrl : Option (List Char)) :
    Option (List Char) :=
  match imageUrl with
  | none => none
  | some s =>
    if s = [] then none
    else
      let url := if s.head? = some '/' then s else '/' :: s
      let sep : List Char := if url.contains '?' then ['&'] else ['?']
      some (url ++ sep ++ ['t', '='] ++ now)

/-- A concrete 15-point historical series used as a witness input. -/
def pts15 : List SeriesPoint :=
  (List.range 15).map (fun i => ⟨i + 1, 1/2, .Historical⟩)

/-- A concrete 8-point historical series used as a witness input. -/
def pts8 : List SeriesPoint :=
  (List.range 8).map (fun i => ⟨i + 1, 1/2, .Historical⟩)

/-- A concrete 8-point client-side series used as a witness input. -/
def hd8 : List TimePoint :=
  (List.range 8).map (fun i => ⟨toString i, 1/2⟩)

/-- The two Historical points of the spec's interpolation example:
days 1 and 10 with values 0.3 and 0.5. -/
def histExample : List (Nat × ℚ) := [(1, 3/10), (10, 1/2)]

/-- Claim C1: a forecast request over an input series of at least 10
points with a horizon of 1 to 90 days succeeds and returns exactly the
input points unchanged (values and Historical/Interpolated tags intact)
followed by exactly one new point per horizon day tagged Forecast, and
every returned point carries one of the three provenance tags. -/
theorem forecast_output_structure (predict : Nat → ℚ)
    (points : List SeriesPoint) (h : Nat)
    (hn : 10 ≤ points.length) (h1 : 1 ≤ h) (h90 : h ≤ 90) :
    ∃ out meta, forecast predict points h = .ok (out, meta) ∧
      out.length = points.length + h ∧
      out.take points.length = points ∧
      (∀ p ∈ out.drop points.length, p.prov = .Forecast) ∧
      (∀ p ∈ out,
        p.prov = .Historical ∨ p.prov = .Interpolated ∨ p.prov = .Forecast) := by
  have heq : forecast predict points h = .ok
      (points ++ (List.range h).map (fun i =>
        ({ date := (points.map (fun p => p.date)).foldr max 0 + i + 1
           value := max (-1) (min 1
             (predict ((points.map (fun p => p.date)).foldr max 0 + i + 1)))
           prov := Provenance.Forecast } : SeriesPoint)),
       ⟨"GradientBoosting", points.length, h⟩) := by
    rw [forecast, if_neg (by omega), if_neg (by omega)]
  refine ⟨_, _, heq, ?_, ?_, ?_, ?_⟩
  · simp
  · exact List.take_left points _
  · rw [List.drop_left]
    intro p hp
    simp only [List.mem_map] at hp
    obtain ⟨i, _, rfl⟩ := hp
    rfl
  · intro p _
    cases p.prov <;> simp

/-- Claim C1 witness: the spec example with 15 historical points and
horizon 7 evaluated concretely. -/
theorem forecast_output_structure_witness :
    10 ≤ pts15.length ∧
    (∃ out meta, forecast (fun _ => 1/2) pts15 7 = .ok (out, meta) ∧
      out.length = pts15.length + 7 ∧
      out.take pts15.length = pts15 ∧
      (∀ p ∈ out.drop pts15.length, p.prov = .Forecast) ∧
      (∀ p ∈ out,
        p.prov = .Historical ∨ p.prov = .Interpolated ∨ p.prov = .Forecast)) :=
  ⟨by simp [pts15],
   forecast_output_structure (fun _ => 1/2) pts15 7 (by simp [pts15])
     (by omega) (by omega)⟩

/-- Claim C2: with an input series of at least 10 points, a horizon
outside 1..90 days signals InvalidParameterError, and every horizon in
1..90 (values 1 through 6 included) is accepted. -/
theorem forecast_horizon_validation (predict : Nat → ℚ)
    (points : List SeriesPoint) (hn : 10 ≤ points.length) :
    (∀ h : Nat, (h < 1 ∨ 90 < h) →
      forecast predict points h = .error .InvalidParameterError) ∧
    (∀ h : Nat, 1 ≤ h → h ≤ 90 →
      ∃ out meta, forecast predict points h = .ok (out, meta)) := by
  constructor
  · intro h hout
    rw [forecast, if_neg (by omega), if_pos (by omega)]
  · intro h h1 h90
    exact ⟨_, _, by rw [forecast, if_neg (by omega), if_neg (by omega)]⟩

/-- Claim C2 witness: horizon 100 is rejected with
InvalidParameterError and horizon 3 (inside 1..6) is accepted, on a
concrete 15-point series. -/
theorem forecast_horizon_validation_witness :
    10 ≤ pts15.length ∧
    forecast (fun _ => 1/2) pts15 100 = .error .InvalidParameterError ∧
    (∃ out meta, forecast (fun _ => 1/2) pts15 3 = .ok (out, meta)) :=
  ⟨by simp [pts15],
   (forecast_horizon_validation (fun _ => 1/2) pts15 (by simp [pts15])).1
     100 (by omega),
   (forecast_horizon_validation (fun _ => 1/2) pts15 (by simp [pts15])).2
     3 (by omega) (by omega)⟩

/-- Claim C3: a forecast request over a series of fewer than 10 points
signals InsufficientHistoryError (producing no forecast points), and the
client-side handleGenerateForecast rejects a series shorter than 10
points with an error message instead of issuing a request. -/
theorem forecast_insufficient_history (predict : Nat → ℚ)
    (points : List SeriesPoint) (h : Nat) (hn : points.length < 10)
    (hd : List TimePoint) (hhd : hd.length < 10)
    (idx : String) (hz : Nat) :
    forecast predict points h = .error .InsufficientHistoryError ∧
    (∃ msg, handleGenerateForecast hd idx hz = .showError msg) := by
  constructor
  · rw [forecast, if_pos hn]
  · exact ⟨_, by rw [handleGenerateForecast, if_pos hhd]⟩

/-- Claim C3 witness: the spec error scenario with an 8-point series and
horizon 30 evaluated concretely, on both the modelled backend and the
client-side handler. -/
theorem forecast_insufficient_history_witness :
    pts8.length < 10 ∧ hd8.length < 10 ∧
    forecast (fun _ => 1/2) pts8 30 = .error .InsufficientHistoryError ∧
    (∃ msg, handleGenerateForecast hd8 "NDVI" 30 = .showError msg) :=
  ⟨by simp [pts8], by simp [hd8],
   (forecast_insufficient_history (fun _ => 1/2) pts8 30 (by simp [pts8])
     hd8 (by simp [hd8]) "NDVI" 30).1,
   (forecast_insufficient_history (fun _ => 1/2) pts8 30 (by simp [pts8])
     hd8 (by simp [hd8]) "NDVI" 30).2⟩

/-- The three zones_percent bucket predicates cover every value exactly
once: the bucket counts of any pixel list add up to its length. -/
theorem three_bucket_length (l : List ℚ) :
    (l.filter (fun v => v < 3/10)).length +
    (l.filter (fun v => 3/10 ≤ v ∧ v ≤ 6/10)).length +
    (l.filter (fun v => 6/10 < v)).length = l.length := by
  induction l with
  | nil => simp
  | cons a t ih =>
    by_cases h1 : a < 3/10
    · have h2 : ¬ (3/10 ≤ a ∧ a ≤ 6/10) := fun hc => absurd h1 (not_lt.mpr hc.1)
      have h3 : ¬ (6/10 < a) := by linarith
      simp [List.filter_cons, h1, h2, h3] at ih ⊢
      omega
    · by_cases h3 : 6/10 < a
      · have h2 : ¬ (3/10 ≤ a ∧ a ≤ 6/10) := fun hc => absurd h3 (not_lt.mpr hc.2)
        simp [List.filter_cons, h1, h2, h3] at ih ⊢
        omega
      · have h2 : 3/10 ≤ a ∧ a ≤ 6/10 := ⟨not_lt.mp h1, not_lt.mp h3⟩
        simp [List.filter_cons, h1, h2.1, h2.2, h3] at ih ⊢
        omega

/-- Arithmetic core of the zones_percent invariant: three counts that
partition n pixels yield percentages summing to exactly 100. -/
theorem bucket_div_sum {a b c n : ℕ} (hn : n ≠ 0) (h : a + b + c = n) :
    (a : ℚ) / n * 100 + (b : ℚ) / n * 100 + (c : ℚ) / n * 100 = 100 := by
  have hq : (a : ℚ) + b + c = n := by exact_mod_cast h
  have hnq : (n : ℚ) ≠ 0 := Nat.cast_ne_zero.mpr hn
  field_simp
  linarith

/-- Claim C4: zones_percent consists of exactly the three buckets low
(below 0.3), medium (0.3 to 0.6) and high (above 0.6) computed over
valid pixels only, and for any raster with at least one valid pixel the
three percentages sum to exactly 100, hence within the 0.1 tolerance. -/
theorem zones_percent_sum_100 (raster : List (ℚ × Bool))
    (hne : raster.filter (fun p => p.2) ≠ []) :
    (zonesPercent raster).1 + (zonesPercent raster).2.1 +
      (zonesPercent raster).2.2 = 100 ∧
    |(zonesPercent raster).1 + (zonesPercent raster).2.1 +
      (zonesPercent raster).2.2 - 100| ≤ 1/10 := by
  have hlen : ((raster.filter (fun p => p.2)).map (fun p => p.1)).length ≠ 0 := by
    simpa using hne
  have hmain : (zonesPercent raster).1 + (zonesPercent raster).2.1 +
      (zonesPercent raster).2.2 = 100 :=
    bucket_div_sum hlen (three_bucket_length _)
  refine ⟨hmain, ?_⟩
  rw [hmain]
  norm_num

/-- Claim C4 witness: a concrete raster with three valid pixels, one per
bucket, and one invalid pixel. -/
theorem zones_percent_sum_100_witness :
    ([((2:ℚ)/10, true), (5/10, true), (9/10, true), (9/10, false)].filter
      (fun p => p.2) ≠ []) ∧
    ((zonesPercent [((2:ℚ)/10, true), (5/10, true), (9/10, true), (9/10, false)]).1 +
      (zonesPercent [((2:ℚ)/10, true), (5/10, true), (9/10, true), (9/10, false)]).2.1 +
      (zonesPercent [((2:ℚ)/10, true), (5/10, true), (9/10, true), (9/10, false)]).2.2 = 100 ∧
     |(zonesPercent [((2:ℚ)/10, true), (5/10, true), (9/10, true), (9/10, false)]).1 +
      (zonesPercent [((2:ℚ)/10, true), (5/10, true), (9/10, true), (9/10, false)]).2.1 +
      (zonesPercent [((2:ℚ)/10, true), (5/10, true), (9/10, true), (9/10, false)]).2.2 - 100| ≤ 1/10) :=
  ⟨by simp, zones_percent_sum_100 _ (by simp)⟩

/-- Membership in an ordered insertion: the inserted cluster or one of
the original clusters. -/
theorem mem_insertByMean {x c : List ℚ} {cs : List (List ℚ)} :
    x ∈ insertByMean c cs ↔ x = c ∨ x ∈ cs := by
  induction cs with
  | nil => simp [insertByMean]
  | cons d ds ih =>
    rw [insertByMean]
    by_cases h : clusterMean c ≤ clusterMean d
    · simp [h]
    · simp [h, ih]
      tauto

/-- Ordered insertion preserves the ascending-mean pairwise order. -/
theorem pairwise_insertByMean (c : List ℚ) (cs : List (List ℚ))
    (h : cs.Pairwise (fun a b => clusterMean a ≤ clusterMean b)) :
    (insertByMean c cs).Pairwise (fun a b => clusterMean a ≤ clusterMean b) := by
  induction cs with
  | nil => simp [insertByMean]
  | cons d ds ih =>
    rw [List.pairwise_cons] at h
    obtain ⟨hd, hds⟩ := h
    rw [insertByMean]
    by_cases hc : clusterMean c ≤ clusterMean d
    · rw [if_pos hc, List.pairwise_cons]
      refine ⟨?_, ?_⟩
      · intro x hx
        rcases List.mem_cons.mp hx with rfl | hx'
        · exact hc
        · exact le_trans hc (hd x hx')
      · rw [List.pairwise_cons]
        exact ⟨hd, hds⟩
    · rw [if_neg hc, List.pairwise_cons]
      refine ⟨?_, ih hds⟩
      intro x hx
      rcases mem_insertByMean.mp hx with rfl | hx'
      · exact le_of_not_le hc
      · exact hd x hx'

/-- The cluster sort produces clusters in ascending order of mean. -/
theorem sortByMean_pairwise (cs : List (List ℚ)) :
    (sortByMean cs).Pairwise (fun a b => clusterMean a ≤ clusterMean b) := by
  induction cs with
  | nil => simp [sortByMean]
  | cons c cs ih => exact pairwise_insertByMean c _ ih

/-- Ordered insertion grows the cluster list by one. -/
theorem length_insertByMean (c : List ℚ) (cs : List (List ℚ)) :
    (insertByMean c cs).length = cs.length + 1 := by
  induction cs with
  | nil => simp [insertByMean]
  | cons d ds ih =>
    rw [insertByMean]
    by_cases h : clusterMean c ≤ clusterMean d
    · simp [h]
    · simp [h, ih]

/-- The cluster sort preserves the number of clusters. -/
theorem length_sortByMean (cs : List (List ℚ)) :
    (sortByMean cs).length = cs.length := by
  induction cs with
  | nil => rfl
  | cons c cs ih => rw [sortByMean, length_insertByMean, ih, List.length_cons]

/-- Every zone produced by the numbering step has an id at least the
start value and the mean of one of the input clusters. -/
theorem mem_assignZoneIds {w : Zone} (start : Nat) (cs : List (List ℚ))
    (h : w ∈ assignZoneIds start cs) :
    start ≤ w.zone_id ∧ ∃ c ∈ cs, w.mean_index = clusterMean c := by
  induction cs generalizing start with
  | nil => simp [assignZoneIds] at h
  | cons c cs ih =>
    rw [assignZoneIds] at h
    rcases List.mem_cons.mp h with rfl | h'
    · exact ⟨le_refl _, c, List.mem_cons_self c cs, rfl⟩
    · obtain ⟨h1, c', hc', h2⟩ := ih (start + 1) h'
      exact ⟨by omega, c', List.mem_cons_of_mem c hc', h2⟩

/-- Numbering clusters already sorted by ascending mean yields zones
pairwise ordered both by id and by mean. -/
theorem assignZoneIds_pairwise (start : Nat) (cs : List (List ℚ))
    (h : cs.Pairwise (fun a b => clusterMean a ≤ clusterMean b)) :
    (assignZoneIds start cs).Pairwise
      (fun z w => z.zone_id < w.zone_id ∧ z.mean_index ≤ w.mean_index) := by
  induction cs generalizing start with
  | nil => simp [assignZoneIds]
  | cons c cs ih =>
    rw [List.pairwise_cons] at h
    obtain ⟨hc, hcs⟩ := h
    rw [assignZoneIds, List.pairwise_cons]
    refine ⟨?_, ih (start + 1) hcs⟩
    intro w hw
    obtain ⟨h1, c', hc', h2⟩ := mem_assignZoneIds (start + 1) cs hw
    constructor
    · show start < w.zone_id
      omega
    show clusterMean c ≤ w.mean_index
    rw [h2]
    exact hc c' hc'

/-- The numbering step assigns consecutive ids starting at the start
value. -/
theorem assignZoneIds_ids (start : Nat) (cs : List (List ℚ)) :
    (assignZoneIds start cs).map Zone.zone_id =
      List.range' start cs.length := by
  induction cs generalizing start with
  | nil => simp [assignZoneIds]
  | cons c cs ih =>
    rw [assignZoneIds, List.length_cons, List.range'_succ, List.map_cons, ih]

/-- Claim C5: the relabelled zones of any clustering result are ordered
so that a smaller zone_id always has a less-or-equal mean index (zone 1
lowest, zone k highest), and the ids are exactly 1..k, regardless of the
clustering's internal label assignment. -/
theorem zone_means_ordered_by_id (clusters : List (List ℚ)) :
    (relabelByMean clusters).Pairwise
      (fun z w => z.zone_id < w.zone_id ∧ z.mean_index ≤ w.mean_index) ∧
    (relabelByMean clusters).map Zone.zone_id =
      List.range' 1 clusters.length := by
  constructor
  · exact assignZoneIds_pairwise 1 _ (sortByMean_pairwise clusters)
  · rw [relabelByMean, assignZoneIds_ids, length_sortByMean]

/-- Claim C6: in an assembled series, every calendar date inside the
requested range that lacks a Historical observation and is bounded by
Historical points on both sides receives the linear interpolation
between its temporal neighbours tagged Interpolated, and every emitted
point either has a Historical observation at its date or is bounded by
Historical points on both sides (so no point is emitted outside the
bounding Historical range). -/
theorem series_gap_interpolation (hist : List (Nat × ℚ)) (start stop d : Nat)
    (hd1 : start ≤ d) (hd2 : d ≤ stop)
    (hmiss : hist.find? (fun p => p.1 == d) = none)
    (p q : Nat × ℚ)
    (hp : prevHistorical hist d = some p) (hq : nextHistorical hist d = some q) :
    (⟨d, lerp p q d, .Interpolated⟩ : SeriesPoint) ∈
      assembleSeries hist start stop ∧
    ∀ pt ∈ assembleSeries hist start stop,
      (hist.find? (fun x => x.1 == pt.date)).isSome ∨
      ((prevHistorical hist pt.date).isSome ∧
        (nextHistorical hist pt.date).isSome) := by
  constructor
  · rw [assembleSeries, List.mem_filterMap]
    refine ⟨d, ?_, ?_⟩
    · rw [List.mem_range'_1]
      omega
    · rw [hmiss, hp, hq]
  · intro pt hpt
    rw [assembleSeries, List.mem_filterMap] at hpt
    obtain ⟨a, _, ha⟩ := hpt
    rcases hfind : hist.find? (fun p => p.1 == a) with _ | pa
    · rw [hfind] at ha
      rcases hprev : prevHistorical hist a with _ | pp
      · rcases hnext : nextHistorical hist a with _ | qq <;>
          rw [hprev, hnext] at ha <;> exact absurd ha (by simp)
      · rcases hnext : nextHistorical hist a with _ | qq
        · rw [hprev, hnext] at ha
          exact absurd ha (by simp)
        · rw [hprev, hnext] at ha
          have hpt2 : (⟨a, lerp pp qq a, .Interpolated⟩ : SeriesPoint) = pt :=
            Option.some.inj ha
          right
          rw [← hpt2]
          exact ⟨by rw [show (⟨a, lerp pp qq a, .Interpolated⟩ : SeriesPoint).date = a from rfl, hprev]; rfl,
            by rw [show (⟨a, lerp pp qq a, .Interpolated⟩ : SeriesPoint).date = a from rfl, hnext]; rfl⟩
    · rw [hfind] at ha
      have hpt2 : (⟨a, pa.2, .Historical⟩ : SeriesPoint) = pt := Option.some.inj ha
      left
      rw [← hpt2, show (⟨a, pa.2, .Historical⟩ : SeriesPoint).date = a from rfl,
        hfind]
      rfl

/-- Claim C6 witness: the spec example with Historical points at days 1
and 10 valued 0.3 and 0.5; the interpolated value at day 5 equals
0.3889 within a tolerance of 0.001. -/
theorem series_gap_interpolation_witness :
    prevHistorical histExample 5 = some (1, 3/10) ∧
    nextHistorical histExample 5 = some (10, 1/2) ∧
    ((⟨5, lerp (1, 3/10) (10, 1/2) 5, .Interpolated⟩ : SeriesPoint) ∈
        assembleSeries histExample 1 10 ∧
      ∀ pt ∈ assembleSeries histExample 1 10,
        (histExample.find? (fun x => x.1 == pt.date)).isSome ∨
        ((prevHistorical histExample pt.date).isSome ∧
          (nextHistorical histExample pt.date).isSome)) ∧
    |lerp (1, 3/10) (10, 1/2) 5 - 3889/10000| ≤ 1/1000 :=
  ⟨rfl, rfl,
   series_gap_interpolation histExample 1 10 5 (by norm_num) (by norm_num)
     rfl (1, 3/10) (10, 1/2) rfl rfl,
   by norm_num [lerp, abs_le]⟩

/-- Claim C7: the zone operation accepts a requested zone count only in
the set 3, 4, 5 — any other count signals InvalidParameterError and a
count in the set never does — and the client offers only these values:
the zone-count slider is bounded to 3..5 and zone label sets exist
exactly for 3, 4 and 5 zones (with as many labels as zones). -/
theorem zone_count_validation (k : Nat) (hk : ¬ (k = 3 ∨ k = 4 ∨ k = 5)) :
    (∀ (pixels : List ℚ) (cluster : Nat → List ℚ → List (List ℚ)),
      zone k pixels cluster = .error .InvalidParameterError) ∧
    getZoneDescription k = [] ∧
    (∀ (k' : Nat) (pixels : List ℚ) (cluster : Nat → List ℚ → List (List ℚ)),
      (k' = 3 ∨ k' = 4 ∨ k' = 5) →
      zone k' pixels cluster ≠ .error .InvalidParameterError) ∧
    (∀ k' : Nat, (numZonesMin ≤ k' ∧ k' ≤ numZonesMax) ↔
      (k' = 3 ∨ k' = 4 ∨ k' = 5)) ∧
    (∀ k' : Nat, (k' = 3 ∨ k' = 4 ∨ k' = 5) →
      (getZoneDescription k').length = k') := by
  refine ⟨?_, ?_, ?_, ?_, ?_⟩
  · intro pixels cluster
    rw [zone, if_pos hk]
  · rcases k with _ | _ | _ | _ | _ | _ | n
    · rfl
    · rfl
    · rfl
    · exact absurd (Or.inl rfl) hk
    · exact absurd (Or.inr (Or.inl rfl)) hk
    · exact absurd (Or.inr (Or.inr rfl)) hk
    · rfl
  · intro k' pixels cluster h
    rw [zone, if_neg (not_not_intro h)]
    by_cases h2 : pixels.length < 20
    · rw [if_pos h2]
      intro hc
      exact absurd (Except.error.inj hc) (by simp)
    · rw [if_neg h2]
      by_cases h3 : pixels.dedup.length < k'
      · rw [if_pos h3]
        intro hc
        exact absurd (Except.error.inj hc) (by simp)
      · rw [if_neg h3]
        intro hc
        exact absurd hc (by simp)
  · intro k'
    show (3 ≤ k' ∧ k' ≤ 5) ↔ (k' = 3 ∨ k' = 4 ∨ k' = 5)
    omega
  · intro k' h
    rcases h with rfl | rfl | rfl <;> rfl

/-- Claim C7 witness: k equal to 7 is rejected with
InvalidParameterError and has no zone labels, while k equal to 4 is
never rejected that way and has four labels; the slider bounds 3..5
coincide with the accepted set at k equal to 4. -/
theorem zone_count_validation_witness :
    ¬ ((7 : Nat) = 3 ∨ (7 : Nat) = 4 ∨ (7 : Nat) = 5) ∧
    zone 7 [] (fun _ _ => []) = .error .InvalidParameterError ∧
    getZoneDescription 7 = [] ∧
    zone 4 [] (fun _ _ => []) ≠ .error .InvalidParameterError ∧
    ((numZonesMin ≤ 4 ∧ 4 ≤ numZonesMax) ↔
      ((4 : Nat) = 3 ∨ (4 : Nat) = 4 ∨ (4 : Nat) = 5)) ∧
    (getZoneDescription 4).length = 4 :=
  ⟨by decide,
   (zone_count_validation 7 (by decide)).1 [] _,
   (zone_count_validation 7 (by decide)).2.1,
   (zone_count_validation 7 (by decide)).2.2.1 4 [] _ (by decide),
   (zone_count_validation 7 (by decide)).2.2.2.1 4,
   (zone_count_validation 7 (by decide)).2.2.2.2 4 (by decide)⟩

/-- One Sidebar toggle never removes NDVI from the selection. -/
theorem ndvi_mem_handleIndexToggle (t : String) (s : List String)
    (h : "NDVI" ∈ s) : "NDVI" ∈ handleIndexToggle t s := by
  rw [handleIndexToggle]
  by_cases h1 : t = "NDVI"
  · rw [if_pos h1]
    exact h
  · rw [if_neg h1]
    by_cases h2 : t ∈ s
    · rw [if_pos h2]
      refine List.mem_filter.mpr ⟨h, ?_⟩
      simp only [ne_eq, decide_eq_true_eq]
      exact fun hc => h1 hc.symm
    · rw [if_neg h2]
      exact List.mem_append_left _ h

/-- NDVI survives any sequence of Sidebar toggles. -/
theorem ndvi_mem_fold (ts : List String) :
    ∀ s, "NDVI" ∈ s →
      "NDVI" ∈ ts.foldl (fun acc t => handleIndexToggle t acc) s := by
  induction ts with
  | nil => exact fun s h => h
  | cons t ts ih => exact fun s h => ih _ (ndvi_mem_handleIndexToggle t s h)

/-- Claim C8: NDVI is always computed — it is in the computed index set
of every analyze request while the other indices are computed exactly
when requested — and in the client NDVI can never be deselected: the
initial selection contains NDVI, handleIndexToggle is a no-op on NDVI,
and NDVI remains selected after any toggle sequence. -/
theorem ndvi_always_computed :
    (∀ requested : List String, "NDVI" ∈ computedIndices requested) ∧
    (∀ (requested : List String) (idx : String),
      idx ∈ (["EVI", "PSRI", "NBR", "NDSI"] : List String) →
      (idx ∈ computedIndices requested ↔ idx ∈ requested)) ∧
    (∀ toggles : List String,
      "NDVI" ∈ toggles.foldl (fun acc t => handleIndexToggle t acc)
        sidebarInitialIndices) ∧
    (∀ prev : List String, handleIndexToggle "NDVI" prev = prev) := by
  refine ⟨?_, ?_, ?_, ?_⟩
  · intro requested
    exact List.mem_cons_self _ _
  · intro requested idx hidx
    have hne : idx ≠ "NDVI" := by
      fin_cases hidx <;> decide
    constructor
    · intro h
      rcases List.mem_cons.mp h with h | h
      · exact absurd h hne
      · exact of_decide_eq_true (List.mem_filter.mp h).2
    · intro h
      exact List.mem_cons_of_mem _
        (List.mem_filter.mpr ⟨hidx, decide_eq_true h⟩)
  · intro toggles
    exact ndvi_mem_fold toggles sidebarInitialIndices
      (List.mem_cons_self _ _)
  · intro prev
    rw [handleIndexToggle, if_pos rfl]

/-- Claim C8 witness: concrete evaluation with EVI requested. -/
theorem ndvi_always_computed_witness :
    "NDVI" ∈ computedIndices ["EVI"] ∧
    "EVI" ∈ (["EVI", "PSRI", "NBR", "NDSI"] : List String) ∧
    ("EVI" ∈ computedIndices ["EVI"] ↔ "EVI" ∈ (["EVI"] : List String)) ∧
    "NDVI" ∈ ["NDVI", "EVI"].foldl (fun acc t => handleIndexToggle t acc)
      sidebarInitialIndices ∧
    handleIndexToggle "NDVI" ["NDVI", "EVI"] = ["NDVI", "EVI"] :=
  ⟨ndvi_always_computed.1 ["EVI"],
   by decide,
   ndvi_always_computed.2.1 ["EVI"] "EVI" (by decide),
   ndvi_always_computed.2.2.1 ["NDVI", "EVI"],
   ndvi_always_computed.2.2.2 ["NDVI", "EVI"]⟩

/-- One TimeSeriesModal toggle keeps the selection duplicate-free and
non-empty. -/
theorem toggleIndex_preserves (v : String) (s : List String)
    (hn : s.Nodup) (hne : s ≠ []) :
    (toggleIndex v s).Nodup ∧ toggleIndex v s ≠ [] := by
  rw [toggleIndex]
  by_cases h1 : v ∈ s
  · rw [if_pos h1]
    by_cases h2 : s.length = 1
    · rw [if_pos h2]
      exact ⟨hn, hne⟩
    · rw [if_neg h2]
      obtain ⟨a, s', rfl⟩ : ∃ a s', s = a :: s' := by
        rcases s with _ | ⟨a, s'⟩
        · exact absurd rfl hne
        · exact ⟨a, s', rfl⟩
      obtain ⟨b, t, rfl⟩ : ∃ b t, s' = b :: t := by
        rcases s' with _ | ⟨b, t⟩
        · exact absurd rfl h2
        · exact ⟨b, t, rfl⟩
      have hmem : ∃ w, w ∈ List.filter (fun i => i ≠ v) (a :: b :: t) := by
        by_cases ha : a = v
        · have hbv : b ≠ v := fun hb =>
            (List.nodup_cons.mp hn).1
              (by rw [show a = b from ha.trans hb.symm]
                  exact List.mem_cons_self b t)
          exact ⟨b, List.mem_filter.mpr
            ⟨by simp, by simpa using hbv⟩⟩
        · exact ⟨a, List.mem_filter.mpr
            ⟨by simp, by simpa using ha⟩⟩
      obtain ⟨w, hw⟩ := hmem
      exact ⟨hn.filter _, List.ne_nil_of_mem hw⟩
  · rw [if_neg h1]
    refine ⟨?_, by simp⟩
    refine List.Nodup.append hn (List.nodup_singleton v) ?_
    intro x hx hx'
    rw [List.mem_singleton.mp hx'] at hx
    exact h1 hx

/-- Any toggle sequence keeps the selection duplicate-free and
non-empty. -/
theorem toggle_fold_inv (ts : List String) :
    ∀ s : List String, s.Nodup → s ≠ [] →
      (ts.foldl (fun acc v => toggleIndex v acc) s).Nodup ∧
      ts.foldl (fun acc v => toggleIndex v acc) s ≠ [] := by
  induction ts with
  | nil => exact fun s h1 h2 => ⟨h1, h2⟩
  | cons t ts ih =>
    intro s h1 h2
    have h := toggleIndex_preserves t s h1 h2
    exact ih _ h.1 h.2

/-- Claim C9: in the TimeSeriesModal the selected index set is always
non-empty — every state reachable from the initial selection NDVI by
any sequence of toggleIndex operations has at least one selected index,
because removing the last selected index is a no-op. -/
theorem selected_indices_nonempty :
    (∀ toggles : List String,
      toggles.foldl (fun acc v => toggleIndex v acc) tsInitialIndices ≠ []) ∧
    (∀ (v : String) (s : List String), v ∈ s → s.length = 1 →
      toggleIndex v s = s) := by
  constructor
  · intro toggles
    exact (toggle_fold_inv toggles tsInitialIndices
      (by simp [tsInitialIndices]) (by simp [tsInitialIndices])).2
  · intro v s hv hl
    rw [toggleIndex, if_pos hv, if_pos hl]

/-- Claim C9 witness: a concrete toggle sequence that tries to empty the
selection leaves it non-empty, and toggling the single selected index is
a no-op. -/
theorem selected_indices_nonempty_witness :
    ["NDVI", "EVI", "NDVI"].foldl (fun acc v => toggleIndex v acc)
      tsInitialIndices ≠ [] ∧
    "NDVI" ∈ (["NDVI"] : List String) ∧
    toggleIndex "NDVI" ["NDVI"] = ["NDVI"] :=
  ⟨selected_indices_nonempty.1 ["NDVI", "EVI", "NDVI"],
   by decide,
   selected_indices_nonempty.2 "NDVI" ["NDVI"] (by decide) (by decide)⟩

/-- Claim C10: buildImageUrl returns null for an empty or missing input,
and for every non-empty input returns a URL beginning with a slash
(prepending one when the input lacks it), consisting of the
slash-ensured input followed by the appended cache-busting timestamp
parameter, joined with the ampersand separator exactly when the input
already contains a question mark and with a question mark otherwise. -/
theorem buildImageUrl_spec (now : List Char) :
    buildImageUrl now none = none ∧
    buildImageUrl now (some []) = none ∧
    ∀ s : List Char, s ≠ [] →
      ∃ r, buildImageUrl now (some s) = some r ∧
        r.head? = some '/' ∧
        r = (if s.head? = some '/' then s else '/' :: s) ++
            (if s.contains '?' then ['&'] else ['?']) ++ ['t', '='] ++ now := by
  refine ⟨rfl, rfl, ?_⟩
  intro s hs
  by_cases hh : s.head? = some '/'
  · rw [if_pos hh]
    refine ⟨s ++ (if s.contains '?' then ['&'] else ['?']) ++ ['t', '='] ++ now,
      ?_, ?_, rfl⟩
    · show buildImageUrl now (some s) = _
      simp only [buildImageUrl, if_neg hs, if_pos hh]
    · obtain ⟨c, s', rfl⟩ : ∃ c s', s = c :: s' := by
        rcases s with _ | ⟨c, s'⟩
        · exact absurd rfl hs
        · exact ⟨c, s', rfl⟩
      have hc : c = '/' := by simpa using hh
      subst hc
      rfl
  · rw [if_neg hh]
    refine ⟨('/' :: s) ++ (if s.contains '?' then ['&'] else ['?']) ++
      ['t', '='] ++ now, ?_, rfl, rfl⟩
    show buildImageUrl now (some s) = _
    simp only [buildImageUrl, if_neg hs, if_neg hh]
    have hcont : ('/' :: s).contains '?' = s.contains '?' := by
      simp [List.contains_cons]
    rw [hcont]

/-- Claim C10 witness: a slash-less, query-less concrete input gains a
leading slash and a question-mark-joined timestamp parameter. -/
theorem buildImageUrl_spec_witness :
    (['a', 'b'] : List Char) ≠ [] ∧
    (∃ r, buildImageUrl ['1'] (some ['a', 'b']) = some r ∧
      r.head? = some '/' ∧
      r = (if (['a', 'b'] : List Char).head? = some '/' then ['a', 'b']
            else '/' :: ['a', 'b']) ++
          (if (['a', 'b'] : List Char).contains '?' then ['&'] else ['?']) ++
          ['t', '='] ++ ['1']) :=
  ⟨by decide, (buildImageUrl_spec ['1']).2.2 ['a', 'b'] (by decide)⟩

end CropMonitor
